import Mathlib

/-!
# Verification of the AI News Poster agent core against its specification

The repository ships only its black-box HTTP test scripts under
`src/testsprite_tests/`; the orchestrator, dedup table, tiered decision
engine, activity log and auto-run timer themselves are not in the source
tree.  Every component below is therefore a shallow embedding modelled
from the specification (`spec.md`), as noted in each doc comment.
-/

namespace NewsAgent

/-- Split a character list on whitespace into words, dropping empty
runs; `acc` holds the (reversed) current word. -/
def wordsAux : List Char → List Char → List (List Char)
  | [], acc => if acc = [] then [] else [acc.reverse]
  | c :: rest, acc =>
    if c.isWhitespace then
      if acc = [] then wordsAux rest [] else acc.reverse :: wordsAux rest []
    else wordsAux rest (c :: acc)

/-- The whitespace-separated words of a character list. -/
def words (cs : List Char) : List (List Char) := wordsAux cs []

/-- Modelled from the spec (§4.1, and the normalization used by
`TC002_deduplicate_news_articles_by_hash.py`): normalization is
lowercase, trim, and collapse of internal whitespace — the words of the
lowercased string joined by single spaces. -/
def normalize (s : String) : String :=
  ⟨List.intercalate [' '] (words (s.data.map Char.toLower))⟩

/-- Modelled from the spec (§3): an Article as the dedup gate sees it.
A malformed/missing title is represented by `none` (§4.1 edge case). -/
structure Article where
  title : Option String
  sourceName : String
deriving DecidableEq, Repr

/-- Modelled from the spec (§3): the fingerprint is the SHA-256 hash of
`normalize(title) + "|" + normalize(source_name)`.  The cryptographic
hash is abstracted as a parameter `hash`; the admission properties below
hold for every function `hash`, in particular for SHA-256. -/
def fingerprint (hash : String → String) (title sourceName : String) : String :=
  hash (normalize title ++ "|" ++ normalize sourceName)

/-- The fingerprint of an article, absent when the title is missing. -/
def fpOf (hash : String → String) (a : Article) : Option String :=
  a.title.map (fun t => fingerprint hash t a.sourceName)

/-- Outcome of a dedup admission attempt (§4.1, §7). -/
inductive AdmitOutcome where
  | admitted
  | rejectedDuplicate
  | rejectedMalformed
deriving DecidableEq, Repr

/-- Modelled from the spec (§4.1 Dedup Admission Table, absent from
`src/`): `Admit` computes the fingerprint and performs an atomic
check-and-insert against the table (the set of permanently inserted
fingerprints); rejection leaves the table untouched, and a missing title
is rejected with a distinguishable error. -/
def admitArticle (hash : String → String) (table : List String) (a : Article) :
    AdmitOutcome × List String :=
  match a.title with
  | none => (.rejectedMalformed, table)
  | some t =>
    let fp := fingerprint hash t a.sourceName
    if fp ∈ table then (.rejectedDuplicate, table)
    else (.admitted, fp :: table)

/-- The table's entire lifetime: a sequence of `Admit` calls threaded
through the table state, recording each article with its outcome. -/
def admitSeq (hash : String → String) :
    List Article → List String → List (Article × AdmitOutcome) × List String
  | [], table => ([], table)
  | a :: rest, table =>
    let r := admitArticle hash table a
    let res := admitSeq hash rest r.2
    ((a, r.1) :: res.1, res.2)

/-- How many articles with fingerprint `f` were admitted in a recorded
admission history. -/
def countAdmitted (hash : String → String) (f : String) :
    List (Article × AdmitOutcome) → Nat
  | [] => 0
  | (a, r) :: rest =>
    (if r = .admitted ∧ fpOf hash a = some f then 1 else 0) + countAdmitted hash f rest

theorem admit_table_monotone (hash : String → String) (table : List String)
    (a : Article) (f : String) (hf : f ∈ table) : f ∈ (admitArticle hash table a).2 := by
  obtain ⟨t, src⟩ := a
  cases t with
  | none => exact hf
  | some t =>
    simp only [admitArticle]
    split
    · exact hf
    · exact List.mem_cons_of_mem _ hf

theorem admit_mem_not_admitted (hash : String → String) (table : List String)
    (a : Article) (f : String) (hf : f ∈ table) (hfp : fpOf hash a = some f) :
    (admitArticle hash table a).1 ≠ .admitted := by
  obtain ⟨t, src⟩ := a
  cases t with
  | none => exact fun h => nomatch h
  | some t =>
    simp only [fpOf, Option.map] at hfp
    have hfe : fingerprint hash t src = f := by injection hfp
    simp only [admitArticle, hfe]
    split
    · simp
    · exact absurd hf (by assumption)

theorem admit_admitted_mem (hash : String → String) (table : List String)
    (a : Article) (f : String) (hfp : fpOf hash a = some f)
    (h : (admitArticle hash table a).1 = .admitted) : f ∈ (admitArticle hash table a).2 := by
  obtain ⟨t, src⟩ := a
  cases t with
  | none => exact nomatch h
  | some t =>
    simp only [fpOf, Option.map] at hfp
    have hfe : fingerprint hash t src = f := by injection hfp
    simp only [admitArticle, hfe] at h ⊢
    by_cases hm : f ∈ table
    · rw [if_pos hm] at h; exact nomatch h
    · rw [if_neg hm]; exact List.mem_cons_self f table

theorem admitSeq_count_invariant (hash : String → String) (f : String)
    (arts : List Article) :
    ∀ table : List String,
      (f ∈ table → countAdmitted hash f (admitSeq hash arts table).1 = 0) ∧
      countAdmitted hash f (admitSeq hash arts table).1 ≤ 1 := by
  induction arts with
  | nil => intro table; exact ⟨fun _ => rfl, Nat.zero_le 1⟩
  | cons a rest ih =>
    intro table
    obtain ⟨ih0, ih1⟩ := ih (admitArticle hash table a).2
    constructor
    · intro hmem
      have hnot : ¬((admitArticle hash table a).1 = .admitted ∧ fpOf hash a = some f) := by
        rintro ⟨hadm, hfp⟩
        exact admit_mem_not_admitted hash table a f hmem hfp hadm
      simp only [admitSeq, countAdmitted, if_neg hnot,
        ih0 (admit_table_monotone hash table a f hmem)]
    · by_cases hc : (admitArticle hash table a).1 = .admitted ∧ fpOf hash a = some f
      · have hmem' : f ∈ (admitArticle hash table a).2 :=
          admit_admitted_mem hash table a f hc.2 hc.1
        simp only [admitSeq, countAdmitted, if_pos hc, ih0 hmem']
        omega
      · simpa only [admitSeq, countAdmitted, if_neg hc, Nat.zero_add] using ih1

/-- C1: For every pair of articles whose fingerprints are equal — the
fingerprint being the (abstracted) SHA-256 hash of
`normalize(title) + "|" + normalize(source_name)`, with normalization
lowercase/trim/collapse — at most one of the pair is ever admitted
across the Dedup Admission Table's entire lifetime (any admission
history run from the empty table), regardless of call order; and a
rejected admission has no side effect on the table. -/
theorem dedup_at_most_one_admitted_per_fingerprint (hash : String → String)
    (arts : List Article) (f : String) :
    countAdmitted hash f (admitSeq hash arts []).1 ≤ 1 ∧
    ∀ (table : List String) (a : Article),
      (admitArticle hash table a).1 ≠ AdmitOutcome.admitted →
        (admitArticle hash table a).2 = table := by
  refine ⟨(admitSeq_count_invariant hash f arts []).2, ?_⟩
  intro table a h
  obtain ⟨t, src⟩ := a
  cases t with
  | none => rfl
  | some t =>
    simp only [admitArticle] at h ⊢
    by_cases hm : fingerprint hash t src ∈ table
    · rw [if_pos hm]
    · rw [if_neg hm] at h; exact absurd rfl h

theorem dedup_at_most_one_admitted_per_fingerprint_witness :
    countAdmitted id "storm hits city|ap"
      (admitSeq id
        [⟨some "Storm hits city", "AP"⟩, ⟨some " STORM   hits city ", "ap"⟩] []).1 ≤ 1 ∧
    (admitArticle id ["storm hits city|ap"] ⟨some "Storm hits city", "AP"⟩).2 =
      ["storm hits city|ap"] :=
  ⟨(dedup_at_most_one_admitted_per_fingerprint id
      [⟨some "Storm hits city", "AP"⟩, ⟨some " STORM   hits city ", "ap"⟩]
      "storm hits city|ap").1,
   (dedup_at_most_one_admitted_per_fingerprint id
      [⟨some "Storm hits city", "AP"⟩, ⟨some " STORM   hits city ", "ap"⟩]
      "storm hits city|ap").2
      ["storm hits city|ap"] ⟨some "Storm hits city", "AP"⟩ (by decide)⟩

theorem normalize_storm_scenario :
    normalize " STORM   hits City " = "storm hits city" := by decide

theorem dedup_storm_scenario :
    countAdmitted id "storm hits city|ap"
      (admitSeq id
        [⟨some "Storm hits city", "AP"⟩, ⟨some " STORM   hits city ", "ap"⟩] []).1 = 1 := by
  decide

/-- Outcome of invoking an enrichment tool (§6): a result within the
time budget, a timeout, a tool error, or an empty result. -/
inductive ToolOutcome where
  | ok (text : String)
  | timeout
  | toolError
  | emptyResult
deriving DecidableEq, Repr

/-- A tool invocation counts as failed on timeout, error or empty
result (§4.2 escalation policy). -/
def ToolOutcome.failed : ToolOutcome → Bool
  | .ok _ => false
  | _ => true

/-- The three recognized enrichment tools (§4.2 tier table, §6). -/
inductive Tool where
  | contentFetch
  | webSearch
  | similarityLookup
deriving DecidableEq, Repr

/-- The wire identifier of each recognized tool. -/
def Tool.name : Tool → String
  | .contentFetch => "content-fetch"
  | .webSearch => "web-search"
  | .similarityLookup => "similarity-lookup"

/-- The recognized tool identifiers (§4.2, §6). -/
def recognizedTools : List String := ["content-fetch", "web-search", "similarity-lookup"]

/-- The tool outcomes the environment would produce for one article
(§6: `Invoke(query) -> Result | TimeoutError | ToolError`). -/
structure ToolEnv where
  contentFetch : ToolOutcome
  webSearch : ToolOutcome
  similarityLookup : ToolOutcome
deriving DecidableEq, Repr

/-- Invoke one tool in the given environment. -/
def Tool.invoke (env : ToolEnv) : Tool → ToolOutcome
  | .contentFetch => env.contentFetch
  | .webSearch => env.webSearch
  | .similarityLookup => env.similarityLookup

/-- Result of the Tiered Decision Engine for one article (§4.2). -/
structure EnrichmentResult where
  tierUsed : Nat
  toolsUsed : List String
  failedTools : List String
  enrichedText : String
deriving DecidableEq, Repr

/-- Modelled from the spec (§4.2, §9: the ordered policy table evaluated
by a small interpreter; the engine itself is absent from `src/`): walk
the remaining tier tools in order.  At the currently achieved tier,
first evaluate the sufficiency predicate (entry-condition test,
short-circuiting on the first sufficient tier); only if insufficient,
invoke the next tier's tool.  A failed tool (timeout, error, empty
result) is recorded as failed and the engine proceeds with the
enrichment already available at the current tier — it never escalates
because of a failure. -/
def escalate (suff : Nat → String → Bool) (env : ToolEnv) :
    List Tool → Nat → String → List String → List String → EnrichmentResult
  | [], tier, text, used, failed => ⟨tier, used, failed, text⟩
  | tool :: rest, tier, text, used, failed =>
    if suff tier text then ⟨tier, used, failed, text⟩
    else
      match tool.invoke env with
      | .ok extra =>
          escalate suff env rest (tier + 1) (text ++ extra) (used ++ [tool.name]) failed
      | _ => ⟨tier, used, failed ++ [tool.name], text⟩

/-- Modelled from the spec (§4.2): `Decide(article, snippet)` starts at
tier 1 (no tools) and may escalate through content-fetch (T2),
web-search (T3) and similarity-lookup (T4), under a pluggable
content-sufficiency heuristic `suff`. -/
def Decide (suff : Nat → String → Bool) (env : ToolEnv) (snippet : String) :
    EnrichmentResult :=
  escalate suff env [.contentFetch, .webSearch, .similarityLookup] 1 snippet [] []

/-- Client-visible rejection errors at the request boundary (§6, §7). -/
inductive ClientError where
  | invalidTool
  | invalidConfiguration
  | malformedPayload
deriving DecidableEq, Repr

/-- Modelled from the spec (§4.2, §6: unknown tool identifiers are
rejected by the caller at the request boundary, never forwarded): a
Decide request naming tools is validated against the recognized set
before the engine is invoked. -/
def handleDecideRequest (suff : Nat → String → Bool) (env : ToolEnv)
    (snippet : String) (requestedTools : List String) :
    Except ClientError EnrichmentResult :=
  if requestedTools.all (fun t => decide (t ∈ recognizedTools)) then
    .ok (Decide suff env snippet)
  else
    .error .invalidTool

theorem escalate_tools_recognized (suff : Nat → String → Bool) (env : ToolEnv)
    (tools : List Tool) :
    ∀ (tier : Nat) (text : String) (used failed : List String),
      (∀ t ∈ used, t ∈ recognizedTools) →
      ∀ t ∈ (escalate suff env tools tier text used failed).toolsUsed,
        t ∈ recognizedTools := by
  induction tools with
  | nil => intro tier text used failed hu; exact hu
  | cons tool rest ih =>
    intro tier text used failed hu
    simp only [escalate]
    split
    · exact hu
    · cases tool.invoke env with
      | ok extra =>
        refine ih (tier + 1) (text ++ extra) (used ++ [tool.name]) failed ?_
        intro t ht
        rcases List.mem_append.1 ht with h | h
        · exact hu t h
        · have : t = tool.name := List.mem_singleton.1 h
          subst this
          cases tool <;> simp [Tool.name, recognizedTools]
      | timeout => exact hu
      | toolError => exact hu
      | emptyResult => exact hu

/-- Terminal-or-running state of a Run (§3, §4.3: `running ⇄ paused` is
a timer-visibility flag, not a persisted run state). -/
inductive RunStateKind where
  | running
  | completed
  | cancelled
  | failed
deriving DecidableEq, Repr

/-- The step recorded by one activity-log entry (§4.3 per-item step
sequence, plus the terminal summary entries; the terminal constructors
carry the summarized `processed_count`, `generated_count` and tier
breakdown). -/
inductive Step where
  | analyzing_snippet
  | reading_article
  | deciding
  | generating_posts
  | item_done
  | run_completed (processed generated t1 t2 t3 t4 : Nat)
  | run_cancelled (processed generated t1 t2 t3 t4 : Nat)
deriving DecidableEq, Repr

/-- One activity-log entry: `sequence` is monotonic per run (§3). -/
structure LogEntry where
  sequence : Nat
  step : Step
deriving DecidableEq, Repr

/-- Modelled from the spec (§4.5): the activity log is append-only;
each append assigns the next sequence number (strictly increasing,
starting at 1), and entries are never mutated or reordered. -/
def appendEntry (log : List LogEntry) (s : Step) : List LogEntry :=
  log ++ [{ sequence := log.length + 1, step := s }]

/-- The per-run tier counters `tier_counts[1..4]` (§3). -/
structure TierCounts where
  t1 : Nat
  t2 : Nat
  t3 : Nat
  t4 : Nat
deriving DecidableEq, Repr

/-- Increment the counter of the given tier (1-based; out-of-range
tiers, which the engine never produces, leave the counters unchanged). -/
def TierCounts.increment (tc : TierCounts) : Nat → TierCounts
  | 1 => { tc with t1 := tc.t1 + 1 }
  | 2 => { tc with t2 := tc.t2 + 1 }
  | 3 => { tc with t3 := tc.t3 + 1 }
  | 4 => { tc with t4 := tc.t4 + 1 }
  | _ => tc

/-- Sum of the four tier counters. -/
def TierCounts.total (tc : TierCounts) : Nat := tc.t1 + tc.t2 + tc.t3 + tc.t4

/-- A queued item: an admitted article together with its snippet, the
tool outcomes its enrichment calls would produce, and whether post
generation succeeds for it (§3 QueueItem, §6 collaborator contracts). -/
structure QueueItem where
  article : Article
  snippet : String
  env : ToolEnv
  postOk : Bool
deriving DecidableEq, Repr

/-- A Run record (§3): state, counters and the run-scoped activity
log. -/
structure Run where
  state : RunStateKind
  processedCount : Nat
  generatedCount : Nat
  tierCounts : TierCounts
  log : List LogEntry
deriving DecidableEq, Repr

/-- A freshly started run (§4.3 Start): `running`, zero counters,
empty activity log. -/
def initialRun : Run :=
  { state := .running, processedCount := 0, generatedCount := 0,
    tierCounts := ⟨0, 0, 0, 0⟩, log := [] }

/-- Modelled from the spec (§4.3, absent from `src/`): one item's
processing.  Each of the five steps `analyzing_snippet →
reading_article → deciding → generating_posts → item_done` emits one
activity entry; on decision-engine output the orchestrator increments
`processed_count` and the matching tier counter, and on successful post
creation increments `generated_count`. -/
def processItem (suff : Nat → String → Bool) (run : Run) (item : QueueItem) : Run :=
  let log := appendEntry run.log .analyzing_snippet
  let log := appendEntry log .reading_article
  let log := appendEntry log .deciding
  let r := Decide suff item.env item.snippet
  let log := appendEntry log .generating_posts
  let log := appendEntry log .item_done
  { run with
    processedCount := run.processedCount + 1
    tierCounts := run.tierCounts.increment r.tierUsed
    generatedCount := run.generatedCount + (if item.postOk then 1 else 0)
    log := log }

/-- Sequential processing of a list of queue items (§4.3: one item at a
time, no intra-run parallelism). -/
def processItems (suff : Nat → String → Bool) (items : List QueueItem) (run : Run) : Run :=
  items.foldl (processItem suff) run

/-- Completion (§4.3): queue exhausted without cancellation — state
`completed`, summary entry appended. -/
def finishCompleted (run : Run) : Run :=
  { run with
    state := .completed
    log := appendEntry run.log
      (.run_completed run.processedCount run.generatedCount
        run.tierCounts.t1 run.tierCounts.t2 run.tierCounts.t3 run.tierCounts.t4) }

/-- Cancellation (§4.3): state set to `cancelled` and a terminal
`cancelled` entry summarizing the counters appended. -/
def finishCancelled (run : Run) : Run :=
  { run with
    state := .cancelled
    log := appendEntry run.log
      (.run_cancelled run.processedCount run.generatedCount
        run.tierCounts.t1 run.tierCounts.t2 run.tierCounts.t3 run.tierCounts.t4) }

/-- Modelled from the spec (§4.3, §5, absent from `src/`): the run
loop.  Items are processed sequentially; cancellation is cooperative,
observed at the safe checkpoint after the current item's steps complete
(never mid-step).  `cancelAfter = some k` means Cancel was called while
item `k` (0-based) was being processed and is observed at the
checkpoint right after it; `none` means Cancel is never called. -/
def runLoop (suff : Nat → String → Bool) :
    Option Nat → List QueueItem → Run → Run
  | _, [], run => finishCompleted run
  | cancelAfter, item :: rest, run =>
    let run := processItem suff run item
    match cancelAfter with
    | some 0 => finishCancelled run
    | some (k + 1) => runLoop suff (some k) rest run
    | none => runLoop suff none rest run

/-- Number of `item_done` entries in an activity log. -/
def countItemDone (log : List LogEntry) : Nat :=
  log.countP (fun e => e.step = .item_done)

theorem escalate_tier_bounds (suff : Nat → String → Bool) (env : ToolEnv)
    (tools : List Tool) :
    ∀ (tier : Nat) (text : String) (used failed : List String),
      tier ≤ (escalate suff env tools tier text used failed).tierUsed ∧
      (escalate suff env tools tier text used failed).tierUsed ≤ tier + tools.length := by
  induction tools with
  | nil =>
    intro tier text used failed
    exact ⟨Nat.le_refl tier, Nat.le_add_right tier 0⟩
  | cons tool rest ih =>
    intro tier text used failed
    simp only [escalate, List.length_cons]
    split
    · exact ⟨Nat.le_refl tier, Nat.le_add_right tier (rest.length + 1)⟩
    · cases tool.invoke env with
      | ok extra =>
        obtain ⟨h1, h2⟩ := ih (tier + 1) (text ++ extra) (used ++ [tool.name]) failed
        exact ⟨Nat.le_trans (Nat.le_succ tier) h1,
          Nat.le_trans h2 (by omega)⟩
      | timeout => exact ⟨Nat.le_refl tier, Nat.le_add_right tier (rest.length + 1)⟩
      | toolError => exact ⟨Nat.le_refl tier, Nat.le_add_right tier (rest.length + 1)⟩
      | emptyResult => exact ⟨Nat.le_refl tier, Nat.le_add_right tier (rest.length + 1)⟩

theorem Decide_tier_bounds (suff : Nat → String → Bool) (env : ToolEnv)
    (snippet : String) :
    1 ≤ (Decide suff env snippet).tierUsed ∧ (Decide suff env snippet).tierUsed ≤ 4 :=
  escalate_tier_bounds suff env [.contentFetch, .webSearch, .similarityLookup]
    1 snippet [] []

theorem TierCounts.increment_total (tc : TierCounts) (t : Nat)
    (h1 : 1 ≤ t) (h4 : t ≤ 4) : (tc.increment t).total = tc.total + 1 := by
  interval_cases t <;> simp [TierCounts.increment, TierCounts.total] <;> omega

theorem processItem_counts (suff : Nat → String → Bool) (run : Run)
    (item : QueueItem) :
    (processItem suff run item).tierCounts.total = run.tierCounts.total + 1 ∧
    (processItem suff run item).processedCount = run.processedCount + 1 := by
  obtain ⟨hb1, hb4⟩ := Decide_tier_bounds suff item.env item.snippet
  exact ⟨TierCounts.increment_total run.tierCounts _ hb1 hb4, rfl⟩

theorem processItems_sum_invariant (suff : Nat → String → Bool)
    (items : List QueueItem) :
    ∀ run : Run, run.tierCounts.total = run.processedCount →
      (processItems suff items run).tierCounts.total
        = (processItems suff items run).processedCount := by
  induction items with
  | nil => intro run h; exact h
  | cons item rest ih =>
    intro run h
    obtain ⟨hc1, hc2⟩ := processItem_counts suff run item
    have h' : (processItem suff run item).tierCounts.total
        = (processItem suff run item).processedCount := by rw [hc1, hc2, h]
    simpa only [processItems, List.foldl_cons] using ih (processItem suff run item) h'

theorem runLoop_sum_invariant (suff : Nat → String → Bool) (items : List QueueItem) :
    ∀ (cancelAfter : Option Nat) (run : Run),
      run.tierCounts.total = run.processedCount →
      (runLoop suff cancelAfter items run).tierCounts.total
        = (runLoop suff cancelAfter items run).processedCount := by
  induction items with
  | nil => intro cancelAfter run h; exact h
  | cons item rest ih =>
    intro cancelAfter run h
    obtain ⟨hc1, hc2⟩ := processItem_counts suff run item
    have h' : (processItem suff run item).tierCounts.total
        = (processItem suff run item).processedCount := by rw [hc1, hc2, h]
    match cancelAfter with
    | some 0 => exact h'
    | some (k + 1) => exact ih (some k) (processItem suff run item) h'
    | none => exact ih none (processItem suff run item) h'

theorem escalate_failed_tool_stays (suff : Nat → String → Bool) (env : ToolEnv)
    (tool : Tool) (rest : List Tool) (tier : Nat) (text : String)
    (used failed : List String)
    (hsuff : suff tier text = false)
    (hfail : (tool.invoke env).failed = true) :
    escalate suff env (tool :: rest) tier text used failed
      = ⟨tier, used, failed ++ [tool.name], text⟩ := by
  unfold escalate
  rw [if_neg (by simp [hsuff])]
  cases hinv : tool.invoke env with
  | ok s => rw [hinv] at hfail; simp [ToolOutcome.failed] at hfail
  | timeout => rfl
  | toolError => rfl
  | emptyResult => rfl

theorem escalate_ok_tool_advances (suff : Nat → String → Bool) (env : ToolEnv)
    (tool : Tool) (rest : List Tool) (tier : Nat) (text : String)
    (used failed : List String) (s : String)
    (hsuff : suff tier text = false)
    (hok : tool.invoke env = .ok s) :
    escalate suff env (tool :: rest) tier text used failed
      = escalate suff env rest (tier + 1) (text ++ s) (used ++ [tool.name]) failed := by
  conv_lhs => rw [escalate]
  rw [if_neg (by simp [hsuff]), hok]

/-- C3: For every queued item whose tool at the current tier fails
(timeout, error, or empty result), the Tiered Decision Engine does not
escalate to a higher tier because of that failure: at every tier the
failing tool is recorded as failed and the engine proceeds with the
enrichment already accumulated at the current tier, whose counter is
exactly the one the orchestrator increments — this covers content-fetch
failing at tier 1, web-search at tier 2 and similarity-lookup at
tier 3; in particular an item whose content-fetch tool fails still
passes through `generating_posts` and `item_done` using tier-1
enrichment and increments `tier_counts[1]`, not `tier_counts[2]`. -/
theorem tool_failure_degrades_without_escalation (suff : Nat → String → Bool)
    (run : Run) (item : QueueItem) :
    (∀ (env : ToolEnv) (tool : Tool) (rest : List Tool) (tier : Nat)
        (text : String) (used failed : List String),
      suff tier text = false → (tool.invoke env).failed = true →
      escalate suff env (tool :: rest) tier text used failed
        = ⟨tier, used, failed ++ [tool.name], text⟩) ∧
    (∀ (run' : Run) (item' : QueueItem),
      (processItem suff run' item').tierCounts
        = run'.tierCounts.increment (Decide suff item'.env item'.snippet).tierUsed) ∧
    (∀ (env : ToolEnv) (snippet s2 : String),
      suff 1 snippet = false → env.contentFetch = .ok s2 →
      suff 2 (snippet ++ s2) = false → env.webSearch.failed = true →
      Decide suff env snippet
        = ⟨2, ["content-fetch"], ["web-search"], snippet ++ s2⟩) ∧
    (∀ (env : ToolEnv) (snippet s2 s3 : String),
      suff 1 snippet = false → env.contentFetch = .ok s2 →
      suff 2 (snippet ++ s2) = false → env.webSearch = .ok s3 →
      suff 3 (snippet ++ s2 ++ s3) = false → env.similarityLookup.failed = true →
      Decide suff env snippet
        = ⟨3, ["content-fetch", "web-search"], ["similarity-lookup"],
            snippet ++ s2 ++ s3⟩) ∧
    (suff 1 item.snippet = false → item.env.contentFetch.failed = true →
      Decide suff item.env item.snippet
        = ⟨1, [], ["content-fetch"], item.snippet⟩ ∧
      (processItem suff run item).log.map (fun e => e.step)
        = run.log.map (fun e => e.step)
          ++ [.analyzing_snippet, .reading_article, .deciding,
              .generating_posts, .item_done] ∧
      (processItem suff run item).tierCounts.t1 = run.tierCounts.t1 + 1 ∧
      (processItem suff run item).tierCounts.t2 = run.tierCounts.t2) := by
  refine ⟨escalate_failed_tool_stays suff, fun run' item' => rfl, ?_, ?_, ?_⟩
  · intro env snippet s2 h1 hcf h2 hws
    cases hw : env.webSearch with
    | ok s => rw [hw] at hws; simp [ToolOutcome.failed] at hws
    | timeout => simp [Decide, escalate, h1, hcf, h2, hw, Tool.invoke, Tool.name]
    | toolError => simp [Decide, escalate, h1, hcf, h2, hw, Tool.invoke, Tool.name]
    | emptyResult => simp [Decide, escalate, h1, hcf, h2, hw, Tool.invoke, Tool.name]
  · intro env snippet s2 s3 h1 hcf h2 hws h3 hsl
    cases hl : env.similarityLookup with
    | ok s => rw [hl] at hsl; simp [ToolOutcome.failed] at hsl
    | timeout =>
      simp [Decide, escalate, h1, hcf, h2, hws, h3, hl, Tool.invoke, Tool.name]
    | toolError =>
      simp [Decide, escalate, h1, hcf, h2, hws, h3, hl, Tool.invoke, Tool.name]
    | emptyResult =>
      simp [Decide, escalate, h1, hcf, h2, hws, h3, hl, Tool.invoke, Tool.name]
  · intro hs hf
    have hd : Decide suff item.env item.snippet
        = ⟨1, [], ["content-fetch"], item.snippet⟩ := by
      unfold Decide
      exact escalate_failed_tool_stays suff item.env .contentFetch
        [.webSearch, .similarityLookup] 1 item.snippet [] [] hs hf
    refine ⟨hd, ?_, ?_, ?_⟩
    · simp [processItem, appendEntry]
    · simp [processItem, hd, TierCounts.increment]
    · simp [processItem, hd, TierCounts.increment]

theorem tool_failure_degrades_without_escalation_witness :
    escalate (fun _ _ => false) ⟨.ok "x", .timeout, .ok "y"⟩
        [Tool.webSearch, Tool.similarityLookup] 2 ("sn" ++ "x")
        ["content-fetch"] []
      = ⟨2, ["content-fetch"], [] ++ ["web-search"], "sn" ++ "x"⟩ ∧
    Decide (fun _ _ => false) ⟨.ok "x", .timeout, .ok "y"⟩ "sn"
      = ⟨2, ["content-fetch"], ["web-search"], "sn" ++ "x"⟩ ∧
    Decide (fun _ _ => false) ⟨.ok "x", .ok "y", .timeout⟩ "sn"
      = ⟨3, ["content-fetch", "web-search"], ["similarity-lookup"],
          "sn" ++ "x" ++ "y"⟩ ∧
    Decide (fun _ _ => false) ⟨.timeout, .ok "w", .ok "v"⟩ "snippet"
      = ⟨1, [], ["content-fetch"], "snippet"⟩ ∧
    (processItem (fun _ _ => false) initialRun
        ⟨⟨some "t", "src"⟩, "snippet", ⟨.timeout, .ok "w", .ok "v"⟩, true⟩).tierCounts.t1
      = initialRun.tierCounts.t1 + 1 ∧
    (processItem (fun _ _ => false) initialRun
        ⟨⟨some "t", "src"⟩, "snippet", ⟨.timeout, .ok "w", .ok "v"⟩, true⟩).tierCounts.t2
      = initialRun.tierCounts.t2 := by
  have h := tool_failure_degrades_without_escalation (fun _ _ => false) initialRun
    ⟨⟨some "t", "src"⟩, "snippet", ⟨.timeout, .ok "w", .ok "v"⟩, true⟩
  exact ⟨h.1 ⟨.ok "x", .timeout, .ok "y"⟩ Tool.webSearch [Tool.similarityLookup] 2
      ("sn" ++ "x") ["content-fetch"] [] rfl rfl,
    h.2.2.1 ⟨.ok "x", .timeout, .ok "y"⟩ "sn" "x" rfl rfl rfl rfl,
    h.2.2.2.1 ⟨.ok "x", .ok "y", .timeout⟩ "sn" "x" "y" rfl rfl rfl rfl rfl rfl,
    (h.2.2.2.2 rfl rfl).1,
    (h.2.2.2.2 rfl rfl).2.2.1,
    (h.2.2.2.2 rfl rfl).2.2.2⟩

/-- C8: For every Decide request, unknown tool identifiers are rejected
at the request boundary with a client error and never invoked, and the
`tools_used` list of every EnrichmentResult contains only recognized
tool identifiers. -/
theorem unknown_tools_rejected_and_tools_used_recognized
    (suff : Nat → String → Bool) (env : ToolEnv) (snippet : String)
    (requestedTools : List String) (t0 : String)
    (h0 : t0 ∈ requestedTools) (hn : t0 ∉ recognizedTools) :
    handleDecideRequest suff env snippet requestedTools
      = .error .invalidTool ∧
    ∀ t ∈ (Decide suff env snippet).toolsUsed, t ∈ recognizedTools := by
  constructor
  · unfold handleDecideRequest
    rw [if_neg]
    intro hall
    rw [List.all_eq_true] at hall
    exact hn (of_decide_eq_true (hall t0 h0))
  · exact escalate_tools_recognized suff env
      [.contentFetch, .webSearch, .similarityLookup] 1 snippet [] []
      (fun t ht => absurd ht (List.not_mem_nil t))

theorem unknown_tools_rejected_witness :
    handleDecideRequest (fun _ _ => true) ⟨.ok "a", .ok "b", .ok "c"⟩ "s"
        ["invalid_tool_xyz"]
      = .error .invalidTool ∧
    ∀ t ∈ (Decide (fun _ _ => true) ⟨.ok "a", .ok "b", .ok "c"⟩ "s").toolsUsed,
      t ∈ recognizedTools :=
  unknown_tools_rejected_and_tools_used_recognized (fun _ _ => true)
    ⟨.ok "a", .ok "b", .ok "c"⟩ "s" ["invalid_tool_xyz"] "invalid_tool_xyz"
    (by decide) (by decide)

/-- C2: For every run, at every point where the orchestrator's counters
are observable (the state after any prefix of the queue has been
processed) and for every completed or cancelled run, the sum of
`tier_counts[1..4]` equals `processed_count`. -/
theorem tier_counts_sum_eq_processed_count (suff : Nat → String → Bool)
    (items : List QueueItem) (k : Nat) (cancelAfter : Option Nat) :
    (processItems suff (items.take k) initialRun).tierCounts.total
      = (processItems suff (items.take k) initialRun).processedCount ∧
    (runLoop suff cancelAfter items initialRun).tierCounts.total
      = (runLoop suff cancelAfter items initialRun).processedCount :=
  ⟨processItems_sum_invariant suff (items.take k) initialRun rfl,
   runLoop_sum_invariant suff items cancelAfter initialRun rfl⟩

/-- The terminal `cancelled` summary step for a run's current
counters (§4.3 Cancel). -/
def cancelledSummary (run : Run) : Step :=
  .run_cancelled run.processedCount run.generatedCount
    run.tierCounts.t1 run.tierCounts.t2 run.tierCounts.t3 run.tierCounts.t4

theorem countItemDone_appendEntry (log : List LogEntry) (s : Step) :
    countItemDone (appendEntry log s)
      = countItemDone log + (if s = Step.item_done then 1 else 0) := by
  by_cases h : s = Step.item_done
  · simp [countItemDone, appendEntry, List.countP_append, List.countP_cons,
      List.countP_nil, h]
  · simp [countItemDone, appendEntry, List.countP_append, List.countP_cons,
      List.countP_nil, h]

theorem processItem_countItemDone (suff : Nat → String → Bool) (run : Run)
    (item : QueueItem) :
    countItemDone (processItem suff run item).log = countItemDone run.log + 1 := by
  show countItemDone
      (appendEntry (appendEntry (appendEntry (appendEntry (appendEntry
        run.log .analyzing_snippet) .reading_article) .deciding)
        .generating_posts) .item_done) = countItemDone run.log + 1
  simp [countItemDone_appendEntry]

theorem finishCancelled_spec (run : Run)
    (hinv : countItemDone run.log = run.processedCount) :
    (finishCancelled run).state = RunStateKind.cancelled ∧
    (finishCancelled run).log.getLast?
      = some ⟨(finishCancelled run).log.length,
              cancelledSummary (finishCancelled run)⟩ ∧
    countItemDone (finishCancelled run).log
      = (finishCancelled run).processedCount := by
  refine ⟨rfl, ?_, ?_⟩
  · show (appendEntry run.log (cancelledSummary run)).getLast?
      = some ⟨(appendEntry run.log (cancelledSummary run)).length, cancelledSummary run⟩
    rw [appendEntry, List.getLast?_concat]
    simp [appendEntry]
  · show countItemDone (appendEntry run.log (cancelledSummary run)) = run.processedCount
    rw [countItemDone_appendEntry]
    simp [cancelledSummary, hinv]

theorem runLoop_cancelled_invariant (suff : Nat → String → Bool)
    (items : List QueueItem) :
    ∀ (k : Nat) (run : Run), k < items.length →
      countItemDone run.log = run.processedCount →
      (runLoop suff (some k) items run).state = RunStateKind.cancelled ∧
      (runLoop suff (some k) items run).log.getLast?
        = some ⟨(runLoop suff (some k) items run).log.length,
                cancelledSummary (runLoop suff (some k) items run)⟩ ∧
      countItemDone (runLoop suff (some k) items run).log
        = (runLoop suff (some k) items run).processedCount := by
  induction items with
  | nil => intro k run hk _; exact absurd hk (by simp)
  | cons item rest ih =>
    intro k run hk hinv
    have hinv' : countItemDone (processItem suff run item).log
        = (processItem suff run item).processedCount := by
      rw [processItem_countItemDone suff run item, hinv]
      exact (processItem_counts suff run item).2.symm ▸ rfl
    match k with
    | 0 =>
      exact finishCancelled_spec (processItem suff run item) hinv'
    | Nat.succ k' =>
      exact ih k' (processItem suff run item)
        (Nat.lt_of_succ_lt_succ (by simpa using hk)) hinv'

/-- C4: For every run on which Cancel is called while the run is
running (observed at the safe checkpoint after the current item's steps
complete, never mid-step), the run transitions to `cancelled`, a
terminal `cancelled` entry summarizing `processed_count`,
`generated_count` and the tier breakdown is appended as the very last
activity-log entry (so no further entries follow it), and
`processed_count` at cancellation time equals the number of `item_done`
entries emitted. -/
theorem cancel_transitions_and_summary (suff : Nat → String → Bool)
    (items : List QueueItem) (k : Nat) (hk : k < items.length) :
    (runLoop suff (some k) items initialRun).state = RunStateKind.cancelled ∧
    (runLoop suff (some k) items initialRun).log.getLast?
      = some ⟨(runLoop suff (some k) items initialRun).log.length,
              cancelledSummary (runLoop suff (some k) items initialRun)⟩ ∧
    countItemDone (runLoop suff (some k) items initialRun).log
      = (runLoop suff (some k) items initialRun).processedCount :=
  runLoop_cancelled_invariant suff items k initialRun hk rfl

theorem cancel_transitions_and_summary_witness :
    (runLoop (fun _ _ => true) (some 0)
        [⟨⟨some "t", "src"⟩, "snippet", ⟨.ok "a", .ok "b", .ok "c"⟩, true⟩]
        initialRun).state = RunStateKind.cancelled ∧
    (runLoop (fun _ _ => true) (some 0)
        [⟨⟨some "t", "src"⟩, "snippet", ⟨.ok "a", .ok "b", .ok "c"⟩, true⟩]
        initialRun).log.getLast?
      = some ⟨(runLoop (fun _ _ => true) (some 0)
            [⟨⟨some "t", "src"⟩, "snippet", ⟨.ok "a", .ok "b", .ok "c"⟩, true⟩]
            initialRun).log.length,
          cancelledSummary (runLoop (fun _ _ => true) (some 0)
            [⟨⟨some "t", "src"⟩, "snippet", ⟨.ok "a", .ok "b", .ok "c"⟩, true⟩]
            initialRun)⟩ ∧
    countItemDone (runLoop (fun _ _ => true) (some 0)
        [⟨⟨some "t", "src"⟩, "snippet", ⟨.ok "a", .ok "b", .ok "c"⟩, true⟩]
        initialRun).log
      = (runLoop (fun _ _ => true) (some 0)
          [⟨⟨some "t", "src"⟩, "snippet", ⟨.ok "a", .ok "b", .ok "c"⟩, true⟩]
          initialRun).processedCount :=
  cancel_transitions_and_summary (fun _ _ => true)
    [⟨⟨some "t", "src"⟩, "snippet", ⟨.ok "a", .ok "b", .ok "c"⟩, true⟩] 0
    (by decide)

/-- Process-wide orchestrator state (§5): a single active-Run slot —
the one piece of state the Start guard protects — plus the Run History
store (§4.5). -/
structure Orchestrator where
  activeRun : Option Run
  history : List Run
deriving DecidableEq, Repr

/-- Rejection of a concurrent Start (§4.3, §7). -/
inductive StartError where
  | alreadyRunning
deriving DecidableEq, Repr

/-- Modelled from the spec (§4.3, §5: `Start()` is a mutually-exclusive
critical section guarded by a compare-and-set on the run state): if the
active run is `running` the call fails with `AlreadyRunning` and has no
effect; otherwise a fresh `running` Run is installed. -/
def startRun (o : Orchestrator) : Except StartError Run × Orchestrator :=
  match o.activeRun with
  | some r =>
    if r.state = RunStateKind.running then (.error .alreadyRunning, o)
    else (.ok initialRun, { o with activeRun := some initialRun })
  | none => (.ok initialRun, { o with activeRun := some initialRun })

/-- C5: For every call to Start made while some run is already
`running`, the call fails with `AlreadyRunning`, the orchestrator state
is unchanged (so no second run enters the `running` state — the single
active-run slot still holds the in-flight run), and the counters of the
in-flight run are unchanged by the rejected call. -/
theorem start_rejected_while_running (o : Orchestrator) (r : Run)
    (h1 : o.activeRun = some r) (h2 : r.state = RunStateKind.running) :
    startRun o = (.error .alreadyRunning, o) ∧
    (startRun o).2.activeRun = some r := by
  have hmain : startRun o = (.error .alreadyRunning, o) := by
    unfold startRun
    rw [h1]
    simp [h2]
  exact ⟨hmain, by rw [hmain, h1]⟩

theorem start_rejected_while_running_witness :
    startRun ⟨some initialRun, []⟩ = (.error .alreadyRunning, ⟨some initialRun, []⟩) ∧
    (startRun ⟨some initialRun, []⟩).2.activeRun = some initialRun :=
  start_rejected_while_running ⟨some initialRun, []⟩ initialRun rfl rfl

/-- Modelled from the spec (§4.5): a run's activity log as built by a
sequence of appends (append-only; entries never mutated or reordered). -/
def buildLog (steps : List Step) : List LogEntry :=
  steps.foldl appendEntry []

/-- Modelled from the spec (§4.5, §6 `get-activity-log(since)`): a poll
from sequence offset `k` returns the entries with `sequence > k`, in
log order. -/
def pollSince (log : List LogEntry) (k : Nat) : List LogEntry :=
  log.filter (fun e => decide (k < e.sequence))

theorem appendEntry_map_sequence (log : List LogEntry) (s : Step)
    (h : log.map (fun e => e.sequence) = List.range' 1 log.length) :
    (appendEntry log s).map (fun e => e.sequence)
      = List.range' 1 (appendEntry log s).length := by
  have hlen : (appendEntry log s).length = log.length + 1 := by
    simp [appendEntry]
  rw [hlen, List.range'_concat]
  have harith : 1 + 1 * log.length = log.length + 1 := by omega
  rw [harith, appendEntry, List.map_append, h]
  simp

theorem buildLog_map_sequence (steps : List Step) :
    (buildLog steps).map (fun e => e.sequence)
      = List.range' 1 (buildLog steps).length := by
  suffices hgen : ∀ log : List LogEntry,
      log.map (fun e => e.sequence) = List.range' 1 log.length →
      (steps.foldl appendEntry log).map (fun e => e.sequence)
        = List.range' 1 (steps.foldl appendEntry log).length by
    exact hgen [] rfl
  induction steps with
  | nil => intro log h; exact h
  | cons s rest ih =>
    intro log h
    simpa only [List.foldl_cons] using
      ih (appendEntry log s) (appendEntry_map_sequence log s h)

theorem buildLog_length (steps : List Step) :
    (buildLog steps).length = steps.length := by
  suffices hgen : ∀ log : List LogEntry,
      (steps.foldl appendEntry log).length = log.length + steps.length by
    simpa using hgen []
  induction steps with
  | nil => intro log; simp
  | cons s rest ih =>
    intro log
    rw [List.foldl_cons, ih (appendEntry log s)]
    simp [appendEntry]
    omega

theorem pollSince_eq_drop (k : Nat) :
    ∀ (log : List LogEntry) (s : Nat),
      log.map (fun e => e.sequence) = List.range' s log.length →
      pollSince log k = log.drop (k + 1 - s) := by
  intro log
  induction log with
  | nil => intro s _; simp [pollSince]
  | cons e rest ih =>
    intro s h
    rw [List.length_cons, List.range'_succ, List.map_cons] at h
    have h1 : e.sequence = s := (List.cons.injEq _ _ _ _ ▸ h).1
    have h2 : rest.map (fun e => e.sequence) = List.range' (s + 1) rest.length :=
      (List.cons.injEq _ _ _ _ ▸ h).2
    by_cases hk : k < e.sequence
    · have hpoll : pollSince (e :: rest) k = e :: pollSince rest k := by
        simp [pollSince, List.filter_cons, hk]
      have hz : k + 1 - (s + 1) = 0 := by omega
      have hz' : k + 1 - s = 0 := by
        rw [h1] at hk; omega
      rw [hpoll, ih (s + 1) h2, hz, hz', List.drop_zero, List.drop_zero]
    · have hpoll : pollSince (e :: rest) k = pollSince rest k := by
        simp [pollSince, List.filter_cons, hk]
      have hks : s ≤ k := by rw [h1] at hk; omega
      have harith : k + 1 - s = (k - s) + 1 := by omega
      have harith' : k + 1 - (s + 1) = k - s := by omega
      rw [hpoll, ih (s + 1) h2, harith, harith', List.drop_succ_cons]

/-- C6: For every run and every since-offset `k`, the activity-log
entries have sequence numbers exactly `1, 2, …, n` (strictly increasing
from 1, gap-free), a poll from offset `k` returns exactly the entries
with `sequence > k`, in order, with no gaps and no duplicates (it is
the suffix after the first `k` entries), and appending never mutates or
reorders the entries already in the log. -/
theorem activity_log_sequences_and_poll (steps : List Step) (k : Nat) (s : Step) :
    (buildLog steps).map (fun e => e.sequence) = List.range' 1 steps.length ∧
    pollSince (buildLog steps) k = (buildLog steps).drop k ∧
    buildLog (steps ++ [s]) = buildLog steps ++ [⟨(buildLog steps).length + 1, s⟩] := by
  have hm := buildLog_map_sequence steps
  refine ⟨?_, ?_, ?_⟩
  · rw [← buildLog_length steps]; exact hm
  · have hd := pollSince_eq_drop k (buildLog steps) 1 hm
    rw [Nat.add_sub_cancel] at hd
    exact hd
  · rw [buildLog, List.foldl_append]
    rfl

/-- Modelled from the spec (§3, §4.4): the process-wide auto-run timer
state. -/
structure TimerState where
  enabled : Bool
  intervalSeconds : Nat
  countdownSeconds : Nat
  pausedForProcessing : Bool
deriving DecidableEq, Repr

/-- Modelled from the spec (§4.4 Behavior and Pause rule, absent from
`src/`): one elapsed second of wall-clock time.  While
`paused_for_processing` the countdown is suspended; otherwise it
decrements once, and on reaching zero the timer invokes
`Orchestrator.Start` (the returned flag), resets the countdown to the
interval, and is paused while the triggered run is running. -/
def tick (st : TimerState) : TimerState × Bool :=
  if st.pausedForProcessing then (st, false)
  else if st.countdownSeconds ≤ 1 then
    ({ st with countdownSeconds := st.intervalSeconds,
               pausedForProcessing := true }, true)
  else ({ st with countdownSeconds := st.countdownSeconds - 1 }, false)

/-- `n` elapsed seconds of wall-clock time. -/
def ticks : Nat → TimerState → TimerState
  | 0, st => st
  | n + 1, st => ticks n (tick st).1

/-- Modelled from the spec (§4.4 Manual trigger and Pause rule): when a
run starts — manual trigger included — the timer only sets
`paused_for_processing`; countdown, interval and enabled flag are
untouched. -/
def onRunStart (st : TimerState) : TimerState :=
  { st with pausedForProcessing := true }

/-- C7: For every timer state, `countdown_seconds` decrements once per
elapsed second (hence is strictly decreasing, in particular
non-increasing) across any second that starts and ends unpaused; it is
constant while `paused_for_processing` is true; a manual Start call
does not reset or cancel the countdown (it only sets the pause flag);
and after 2 seconds of idle countdown from an interval of 900 seconds
the status reports 898. -/
theorem countdown_decrements_and_start_preserves (st : TimerState)
    (hp : st.pausedForProcessing = false)
    (hq : (tick st).1.pausedForProcessing = false) :
    ((tick st).1.countdownSeconds = st.countdownSeconds - 1 ∧
      (tick st).1.countdownSeconds < st.countdownSeconds) ∧
    (∀ st' : TimerState, st'.pausedForProcessing = true → (tick st').1 = st') ∧
    (∀ st' : TimerState,
        (onRunStart st').countdownSeconds = st'.countdownSeconds ∧
        (onRunStart st').intervalSeconds = st'.intervalSeconds ∧
        (onRunStart st').enabled = st'.enabled) ∧
    (ticks 2 ⟨true, 900, 900, false⟩).countdownSeconds = 898 := by
  by_cases hc : st.countdownSeconds ≤ 1
  · exfalso
    simp [tick, hp, hc] at hq
  · have h1 : (tick st).1.countdownSeconds = st.countdownSeconds - 1 := by
      simp [tick, hp, hc]
    refine ⟨⟨h1, ?_⟩, ?_, fun st' => ⟨rfl, rfl, rfl⟩, by decide⟩
    · rw [h1]; omega
    · intro st' hps
      simp [tick, hps]

theorem countdown_decrements_and_start_preserves_witness :
    (((tick ⟨true, 900, 900, false⟩).1.countdownSeconds
        = (⟨true, 900, 900, false⟩ : TimerState).countdownSeconds - 1 ∧
      (tick ⟨true, 900, 900, false⟩).1.countdownSeconds
        < (⟨true, 900, 900, false⟩ : TimerState).countdownSeconds) ∧
    (∀ st' : TimerState, st'.pausedForProcessing = true → (tick st').1 = st') ∧
    (∀ st' : TimerState,
        (onRunStart st').countdownSeconds = st'.countdownSeconds ∧
        (onRunStart st').intervalSeconds = st'.intervalSeconds ∧
        (onRunStart st').enabled = st'.enabled) ∧
    (ticks 2 ⟨true, 900, 900, false⟩).countdownSeconds = 898) :=
  countdown_decrements_and_start_preserves ⟨true, 900, 900, false⟩ rfl (by decide)

/-- Modelled from the spec (§4.4 Configuration): the allowed discrete
interval set — 15m, 30m, 1h, 2h, 3h, 4h, in seconds. -/
def allowedIntervals : List Nat := [900, 1800, 3600, 7200, 10800, 14400]

/-- Modelled from the spec (§4.4, §6 `configure-timer(interval,
enabled)`): validate the requested interval against the allowed set; a
missing interval (malformed payload) and an unsupported interval are
rejected with distinguishable client errors, never silently accepted. -/
def configureTimer (st : TimerState) (intervalPayload : Option Nat)
    (enable : Bool) : Except ClientError TimerState :=
  match intervalPayload with
  | none => .error .malformedPayload
  | some n =>
    if n ∈ allowedIntervals then
      .ok { st with intervalSeconds := n, countdownSeconds := n, enabled := enable }
    else .error .invalidConfiguration

/-- Whether a configuration request was accepted. -/
def configAccepted (r : Except ClientError TimerState) : Bool :=
  match r with
  | .ok _ => true
  | .error _ => false

/-- C9: For every timer configuration request, the interval is accepted
if and only if it lies in {900, 1800, 3600, 7200, 10800, 14400}
seconds; any other interval is rejected with `invalidConfiguration` and
a malformed payload (missing interval) with `malformedPayload` — both
distinguishable client errors, never silent acceptance. -/
theorem timer_interval_validation (st : TimerState) (n : Nat) (enable : Bool) :
    (configAccepted (configureTimer st (some n) enable) = true
      ↔ n ∈ allowedIntervals) ∧
    configureTimer st none enable = .error .malformedPayload ∧
    (n ∉ allowedIntervals →
      configureTimer st (some n) enable = .error .invalidConfiguration) := by
  refine ⟨⟨?_, ?_⟩, rfl, ?_⟩
  · intro h
    by_contra hn
    simp [configureTimer, hn, configAccepted] at h
  · intro h
    simp [configureTimer, h, configAccepted]
  · intro hn
    simp [configureTimer, hn]

theorem timer_interval_validation_witness :
    configAccepted
        (configureTimer ⟨false, 900, 900, false⟩ (some 900) true) = true ∧
    configureTimer ⟨false, 900, 900, false⟩ none true
      = .error .malformedPayload ∧
    configureTimer ⟨false, 900, 900, false⟩ (some 901) true
      = .error .invalidConfiguration :=
  ⟨(timer_interval_validation ⟨false, 900, 900, false⟩ 900 true).1.2 (by decide),
   (timer_interval_validation ⟨false, 900, 900, false⟩ 900 true).2.1,
   (timer_interval_validation ⟨false, 900, 900, false⟩ 901 true).2.2 (by decide)⟩

end NewsAgent
